import Mathlib

/-!
Shallow embedding of the snake-game engine from `src/main.rs`.

Coordinates are Rust `u32` values, modelled as `Nat` together with the
explicit saturation bound `u32Max = 2^32 - 1`: Rust `saturating_sub 1` is
truncated `Nat` subtraction, and `saturating_add 1` is `min (n+1) u32Max`.
The random draw in `generate_snack` (`rng.gen_range(0..len)` followed by
`swap_remove`) is modelled by an explicit choice index: for any choice the
returned element is the list element at position `choice % length`, which
ranges over exactly the elements the Rust code can return.
A constructor `panic!` is modelled as `Option.none`.
-/

/-- The Rust `u32::MAX` value, the saturation bound of Rust's `u32` arithmetic. -/
def u32Max : Nat := 2 ^ 32 - 1

/-- Rust `u32::saturating_add(1)`. -/
def satAddOne (n : Nat) : Nat := min (n + 1) u32Max

structure Point where
  x : Nat
  y : Nat
deriving DecidableEq, Repr

inductive Direction where
  | Up
  | Down
  | Left
  | Right
deriving DecidableEq, Repr

structure Snake where
  body : List Point
  direction : Direction
  longer_on_next_move : Bool
deriving DecidableEq, Repr

/-- Rust `Snake::new`: `length` consecutive points starting at `origin`,
increasing in `x`, same `y`; heading `Right`; no growth pending. -/
def Snake.new (length : Nat) (origin : Point) : Snake :=
  { body := (List.range length).map fun x => ⟨origin.x + x, origin.y⟩
    direction := Direction.Right
    longer_on_next_move := false }

/-- Head accessor: `self.body.last().unwrap()` (the default is only ever
read on the empty body, where the Rust code panics). -/
def Snake.head (s : Snake) : Point := s.body.getLastD ⟨0, 0⟩

/-- The `updated_head` computed inside `Snake::move_to_next_position`:
the head offset one cell in the current direction, with saturating
arithmetic on both sides. -/
def Snake.next_head (s : Snake) : Point :=
  match s.direction with
  | Direction.Up => ⟨s.head.x, s.head.y - 1⟩
  | Direction.Down => ⟨s.head.x, satAddOne s.head.y⟩
  | Direction.Left => ⟨s.head.x - 1, s.head.y⟩
  | Direction.Right => ⟨satAddOne s.head.x, s.head.y⟩

/-- Rust `Snake::move_to_next_position`: compute the new head by saturating
one-cell offset, push it, then `remove(0)` unless growth was pending;
the pending flag is cleared in all cases. -/
def Snake.move_to_next_position (s : Snake) : Snake :=
  let pushed := s.body ++ [s.next_head]
  { body := if s.longer_on_next_move then pushed else pushed.drop 1
    direction := s.direction
    longer_on_next_move := false }

/-- Rust `Snake::change_direction`. -/
def Snake.change_direction (s : Snake) (d : Direction) : Snake :=
  { s with direction := d }

/-- Rust `Snake::make_longer`. -/
def Snake.make_longer (s : Snake) : Snake :=
  { s with longer_on_next_move := true }

/-- Rust `Snake::is_eating_snack`: head equals the snack position. -/
def Snake.is_eating_snack (s : Snake) (snack_position : Point) : Bool :=
  decide (s.head = snack_position)

/-- Rust `Snake::is_eating_itself`: the head equals some other body part. -/
def Snake.is_eating_itself (s : Snake) : Bool :=
  s.body.dropLast.any fun body_part => decide (body_part = s.head)

/-- Rust `Snake::collides_with_point`: some body part equals `p`. -/
def Snake.collides_with_point (s : Snake) (p : Point) : Bool :=
  s.body.any fun body_part => decide (body_part = p)

structure SnakePit where
  height : Nat
  width : Nat
deriving DecidableEq, Repr

/-- Rust `Snake::collides_with_bounds`:
`head.x <= 0 || head.y <= 0 || head.x >= width || head.y >= height`. -/
def Snake.collides_with_bounds (s : Snake) (snake_pit : SnakePit) : Bool :=
  decide (s.head.x ≤ 0) || decide (s.head.y ≤ 0) ||
    decide (s.head.x ≥ snake_pit.width) || decide (s.head.y ≥ snake_pit.height)

/-- Rust `SnakePit::get_perimeter`: for each `y` in `0..height`, a full row when
`y == 0 || y == height`, otherwise the two side cells. -/
def SnakePit.get_perimeter (pit : SnakePit) : List Point :=
  (List.range pit.height).flatMap fun y =>
    if y = 0 ∨ y = pit.height then
      (List.range pit.width).map fun x => ⟨x, y⟩
    else
      [⟨0, y⟩, ⟨pit.width - 1, y⟩]

structure SnakeEngine where
  snake : Snake
  snake_pit : SnakePit
  snack_position : Point
deriving DecidableEq, Repr

inductive GameStatus where
  | ContinueAtLevel : Int → GameStatus
  | Finished
deriving DecidableEq, Repr

/-- The candidate list built by `SnakeEngine::generate_snack`: every cell
`(x, y)` with `x` in `1..width` (outer loop) and `y` in `1..height`
(inner loop) not occupied by the snake body, in loop order. -/
def possible_snacks (snake_pit : SnakePit) (snake : Snake) : List Point :=
  (List.range' 1 (snake_pit.width - 1)).flatMap fun x =>
    (List.range' 1 (snake_pit.height - 1)).filterMap fun y =>
      if snake.collides_with_point ⟨x, y⟩ then none else some ⟨x, y⟩

/-- Rust `SnakeEngine::generate_snack`, with the random draw made explicit:
`none` when no candidate exists, otherwise the candidate at index
`choice % length`. -/
def generate_snack (snake_pit : SnakePit) (snake : Snake) (choice : Nat) :
    Option Point :=
  let ps := possible_snacks snake_pit snake
  if ps.isEmpty then none
  else some (ps.getD (choice % ps.length) ⟨0, 0⟩)

/-- Rust `SnakeEngine::new_with_snake_length`: snake of the given length at
origin `(2,2)`; the `panic!` on a failed initial snack generation is
modelled as `none`. -/
def new_with_snake_length (snake_pit_height snake_pit_width snake_length : Nat)
    (choice : Nat) : Option SnakeEngine :=
  let snake_pit : SnakePit := ⟨snake_pit_height, snake_pit_width⟩
  let snake := Snake.new snake_length ⟨2, 2⟩
  match generate_snack snake_pit snake choice with
  | some snack_position => some ⟨snake, snake_pit, snack_position⟩
  | none => none

/-- Rust `SnakeEngine::new`: default snake length 3. -/
def SnakeEngine.mkNew (snake_pit_height snake_pit_width choice : Nat) :
    Option SnakeEngine :=
  new_with_snake_length snake_pit_height snake_pit_width 3 choice

/-- Rust `SnakeEngine::change_snake_direction`. -/
def SnakeEngine.change_snake_direction (e : SnakeEngine) (d : Direction) :
    SnakeEngine :=
  { e with snake := e.snake.change_direction d }

/-- Rust `SnakeEngine::tick`: move, then bounds/self-collision check, then the
snack check; `choice` feeds the snack regeneration draw. -/
def SnakeEngine.tick (e : SnakeEngine) (choice : Nat) :
    SnakeEngine × GameStatus :=
  let moved := e.snake.move_to_next_position
  if moved.collides_with_bounds e.snake_pit || moved.is_eating_itself then
    ({ e with snake := moved }, GameStatus.Finished)
  else if moved.is_eating_snack e.snack_position then
    let grown := moved.make_longer
    match generate_snack e.snake_pit grown choice with
    | some snack_position =>
        ({ snake := grown, snake_pit := e.snake_pit,
           snack_position := snack_position }, GameStatus.ContinueAtLevel 0)
    | none => ({ e with snake := grown }, GameStatus.ContinueAtLevel 0)
  else ({ e with snake := moved }, GameStatus.ContinueAtLevel 0)

/-- Run a list of steps, each an optional direction change followed by a
tick with the given regeneration choice; `none` as soon as a tick finishes
the game, so a `some` result is reachable through `Continue` ticks only. -/
def runContinueSteps (e : SnakeEngine) :
    List (Option Direction × Nat) → Option SnakeEngine
  | [] => some e
  | (d, c) :: rest =>
    let e1 := match d with
      | some dir => e.change_snake_direction dir
      | none => e
    match e1.tick c with
    | (e2, GameStatus.ContinueAtLevel _) => runContinueSteps e2 rest
    | (_, GameStatus.Finished) => none

/-- A direction change immediately followed by one move. -/
def dirMove (s : Snake) (d : Direction) : Snake :=
  (s.change_direction d).move_to_next_position

/-- Manhattan distance on grid points (`Nat` truncated subtraction in both
orders adds up to the absolute difference). -/
def manhattanDist (p q : Point) : Nat :=
  (p.x - q.x) + (q.x - p.x) + ((p.y - q.y) + (q.y - p.y))

/-- State invariant of the engine at rest: non-empty body, consecutive
body points Manhattan-adjacent, head strictly positive and strictly below
the `u32` saturation bound, pit dimensions representable in `u32`. -/
def EngineInv (e : SnakeEngine) : Prop :=
  e.snake.body ≠ [] ∧
  List.Chain' (fun p q => manhattanDist p q = 1) e.snake.body ∧
  1 ≤ e.snake.head.x ∧ 1 ≤ e.snake.head.y ∧
  e.snake.head.x < u32Max ∧ e.snake.head.y < u32Max ∧
  e.snake_pit.width ≤ u32Max ∧ e.snake_pit.height ≤ u32Max

/-- Engine states reachable through the public interface: construction
(with `u32`-representable arguments, a positive snake length, and a length
small enough that building the initial body cannot overflow `u32`),
direction changes, and ticks that returned `ContinueAtLevel`. -/
inductive ReachableEngine : SnakeEngine → Prop where
  | construct (snake_pit_height snake_pit_width snake_length choice : Nat)
      (e : SnakeEngine) (hlen : 1 ≤ snake_length)
      (hlen2 : snake_length + 2 ≤ u32Max)
      (hw : snake_pit_width ≤ u32Max) (hh : snake_pit_height ≤ u32Max)
      (heq : new_with_snake_length snake_pit_height snake_pit_width
        snake_length choice = some e) : ReachableEngine e
  | changeDir (e : SnakeEngine) (d : Direction) (h : ReachableEngine e) :
      ReachableEngine (e.change_snake_direction d)
  | step (e e' : SnakeEngine) (c : Nat) (n : Int) (h : ReachableEngine e)
      (ht : e.tick c = (e', GameStatus.ContinueAtLevel n)) : ReachableEngine e'

/-! ## Basic lemmas about the embedded operations -/

theorem collides_with_point_iff (s : Snake) (p : Point) :
    s.collides_with_point p = true ↔ p ∈ s.body := by
  simp only [Snake.collides_with_point, List.any_eq_true, decide_eq_true_eq]
  exact ⟨fun ⟨q, hq, he⟩ => he ▸ hq, fun h => ⟨p, h, rfl⟩⟩

theorem collides_with_point_eq_false_iff (s : Snake) (p : Point) :
    s.collides_with_point p = false ↔ p ∉ s.body := by
  rw [← Bool.not_eq_true, not_iff_not]
  exact collides_with_point_iff s p

theorem mem_possible_snacks_iff (pit : SnakePit) (s : Snake) (p : Point) :
    p ∈ possible_snacks pit s ↔
      1 ≤ p.x ∧ p.x < pit.width ∧ 1 ≤ p.y ∧ p.y < pit.height ∧
        s.collides_with_point p = false := by
  unfold possible_snacks
  simp only [List.mem_flatMap, List.mem_filterMap, List.mem_range'_1]
  constructor
  · rintro ⟨x, ⟨hx1, hx2⟩, y, ⟨⟨hy1, hy2⟩, hif⟩⟩
    by_cases hc : s.collides_with_point ⟨x, y⟩ = true
    · rw [if_pos hc] at hif; exact absurd hif (by simp)
    · rw [if_neg hc] at hif
      obtain rfl : (⟨x, y⟩ : Point) = p := Option.some.inj hif
      refine ⟨hx1, ?_, hy1, ?_, by simpa using hc⟩
      · show x < pit.width
        omega
      · show y < pit.height
        omega
  · rintro ⟨h1, h2, h3, h4, h5⟩
    refine ⟨p.x, ⟨h1, by omega⟩, p.y, ⟨⟨h3, by omega⟩, ?_⟩⟩
    rw [if_neg (by simp [h5])]

theorem generate_snack_mem {pit : SnakePit} {s : Snake} {c : Nat} {p : Point}
    (h : generate_snack pit s c = some p) : p ∈ possible_snacks pit s := by
  unfold generate_snack at h
  by_cases he : (possible_snacks pit s).isEmpty
  · rw [if_pos he] at h; exact absurd h (by simp)
  · rw [if_neg he] at h
    obtain rfl := Option.some.inj h
    have hlen : 0 < (possible_snacks pit s).length := by
      cases hl : possible_snacks pit s with
      | nil => rw [hl] at he; exact absurd rfl he
      | cons a t => simp [hl]
    have hlt : c % (possible_snacks pit s).length <
        (possible_snacks pit s).length := Nat.mod_lt _ hlen
    rw [List.getD_eq_getElem?_getD, List.getElem?_eq_getElem hlt]
    exact List.getElem_mem hlt

theorem generate_snack_eq_none_iff (pit : SnakePit) (s : Snake) (c : Nat) :
    generate_snack pit s c = none ↔ possible_snacks pit s = [] := by
  unfold generate_snack
  by_cases he : (possible_snacks pit s).isEmpty
  · simp [if_pos he, List.isEmpty_iff.mp he]
  · simp only [if_neg he]
    constructor
    · intro h; exact absurd h (by simp)
    · intro h; exact absurd (List.isEmpty_iff.mpr h) he

theorem move_body (s : Snake) (hne : s.body ≠ []) :
    (s.move_to_next_position).body =
      (if s.longer_on_next_move then s.body else s.body.drop 1)
        ++ [s.next_head] := by
  unfold Snake.move_to_next_position
  cases hl : s.longer_on_next_move with
  | true => simp
  | false =>
    have h1 : 1 ≤ s.body.length := by
      cases hb : s.body with
      | nil => exact absurd hb hne
      | cons a t => simp
    simp [List.drop_append_of_le_length h1]

theorem move_head (s : Snake) (hne : s.body ≠ []) :
    (s.move_to_next_position).head = s.next_head := by
  rw [Snake.head, move_body s hne, List.getLastD_concat]

theorem move_longer (s : Snake) :
    (s.move_to_next_position).longer_on_next_move = false := rfl

theorem move_direction (s : Snake) :
    (s.move_to_next_position).direction = s.direction := rfl

theorem tick_fst_body (e : SnakeEngine) (c : Nat) :
    ((e.tick c).1).snake.body = (e.snake.move_to_next_position).body := by
  simp only [SnakeEngine.tick]
  split
  · rfl
  · split
    · split <;> rfl
    · rfl

theorem tick_continue_shape {e : SnakeEngine} {c : Nat} {e' : SnakeEngine}
    {n : Int} (h : e.tick c = (e', GameStatus.ContinueAtLevel n)) :
    e'.snake.body = (e.snake.move_to_next_position).body ∧
    e'.snake_pit = e.snake_pit ∧
    (e.snake.move_to_next_position).collides_with_bounds e.snake_pit = false ∧
    (e.snake.move_to_next_position).is_eating_itself = false := by
  simp only [SnakeEngine.tick] at h
  split at h
  · exact absurd (congrArg Prod.snd h) (by simp)
  · rename_i hcol
    rw [Bool.or_eq_true, not_or, Bool.not_eq_true, Bool.not_eq_true] at hcol
    split at h
    · split at h
      · obtain rfl := congrArg Prod.fst h
        exact ⟨rfl, rfl, hcol.1, hcol.2⟩
      · obtain rfl := congrArg Prod.fst h
        exact ⟨rfl, rfl, hcol.1, hcol.2⟩
    · obtain rfl := congrArg Prod.fst h
      exact ⟨rfl, rfl, hcol.1, hcol.2⟩

theorem getLastD_mem : ∀ (l : List Point) (d : Point), l ≠ [] →
    l.getLastD d ∈ l
  | [a], _, _ => by simp
  | a :: b :: t, d, _ => by
    rw [List.getLastD_cons]
    exact List.mem_cons_of_mem _ (getLastD_mem (b :: t) a (by simp))

theorem getLast?_eq_getLastD : ∀ (l : List Point) (d : Point), l ≠ [] →
    l.getLast? = some (l.getLastD d)
  | [a], _, _ => rfl
  | a :: b :: t, d, _ => by
    rw [List.getLastD_cons, List.getLast?_cons_cons]
    exact getLast?_eq_getLastD (b :: t) a (by simp)

theorem move_body_length (s : Snake) :
    (s.move_to_next_position).body.length =
      if s.longer_on_next_move then s.body.length + 1 else s.body.length := by
  simp only [Snake.move_to_next_position]
  split <;> simp

theorem collides_with_bounds_eq_false_iff (s : Snake) (pit : SnakePit) :
    s.collides_with_bounds pit = false ↔
      1 ≤ s.head.x ∧ 1 ≤ s.head.y ∧ s.head.x < pit.width ∧
        s.head.y < pit.height := by
  simp only [Snake.collides_with_bounds, Bool.or_eq_false_iff,
    decide_eq_false_iff_not, not_le, ge_iff_le]
  omega

theorem next_head_adjacent (s : Snake) (hx : 1 ≤ s.head.x)
    (hy : 1 ≤ s.head.y) (hx2 : s.head.x < u32Max) (hy2 : s.head.y < u32Max) :
    manhattanDist s.head s.next_head = 1 := by
  cases hd : s.direction with
  | Up =>
    simp only [Snake.next_head, hd, manhattanDist]
    omega
  | Down =>
    simp only [Snake.next_head, hd, manhattanDist, satAddOne]
    rw [Nat.min_eq_left (by omega)]
    omega
  | Left =>
    simp only [Snake.next_head, hd, manhattanDist]
    omega
  | Right =>
    simp only [Snake.next_head, hd, manhattanDist, satAddOne]
    rw [Nat.min_eq_left (by omega)]
    omega

theorem move_chain (s : Snake) (hne : s.body ≠ [])
    (hchain : List.Chain' (fun p q => manhattanDist p q = 1) s.body)
    (hx : 1 ≤ s.head.x) (hy : 1 ≤ s.head.y)
    (hx2 : s.head.x < u32Max) (hy2 : s.head.y < u32Max) :
    List.Chain' (fun p q => manhattanDist p q = 1)
      (s.move_to_next_position).body := by
  have hadj := next_head_adjacent s hx hy hx2 hy2
  have hfull : List.Chain' (fun p q => manhattanDist p q = 1)
      (s.body ++ [s.next_head]) := by
    rw [List.chain'_append]
    refine ⟨hchain, List.chain'_singleton _, ?_⟩
    intro x hx' y hy'
    rw [getLast?_eq_getLastD s.body ⟨0, 0⟩ hne] at hx'
    obtain rfl := Option.some.inj hx'
    obtain rfl := Option.some.inj hy'
    exact hadj
  rw [move_body s hne]
  cases hl : s.longer_on_next_move with
  | true => simpa using hfull
  | false =>
    rw [if_neg (show ¬((false : Bool) = true) by simp)]
    cases hb : s.body with
    | nil => exact absurd hb hne
    | cons a t =>
      have := hfull.tail
      rw [hb] at this
      simpa using this

theorem chain_new (len : Nat) (origin : Point) :
    List.Chain' (fun p q => manhattanDist p q = 1) (Snake.new len origin).body := by
  simp only [Snake.new]
  rw [List.chain'_map]
  cases len with
  | zero => simp
  | succ m =>
    rw [List.chain'_range_succ]
    intro k _
    simp only [manhattanDist]
    omega

theorem new_head (len : Nat) (origin : Point) (h : 1 ≤ len) :
    (Snake.new len origin).head = ⟨origin.x + (len - 1), origin.y⟩ := by
  obtain ⟨m, rfl⟩ : ∃ m, len = m + 1 := ⟨len - 1, by omega⟩
  simp only [Snake.new, Snake.head]
  rw [List.range_succ, List.map_append]
  simp

theorem new_body_ne_nil (len : Nat) (origin : Point) (h : 1 ≤ len) :
    (Snake.new len origin).body ≠ [] := by
  apply List.ne_nil_of_length_pos
  simp only [Snake.new, List.length_map, List.length_range]
  omega

theorem inv_construct {hh ww l c : Nat} {e : SnakeEngine}
    (hlen : 1 ≤ l) (hlen2 : l + 2 ≤ u32Max) (hw : ww ≤ u32Max)
    (hhh : hh ≤ u32Max)
    (heq : new_with_snake_length hh ww l c = some e) : EngineInv e := by
  simp only [new_with_snake_length] at heq
  cases hg : generate_snack ⟨hh, ww⟩ (Snake.new l ⟨2, 2⟩) c with
  | none => rw [hg] at heq; exact absurd heq (by simp)
  | some p =>
    rw [hg] at heq
    obtain rfl := Option.some.inj heq
    have hhead := new_head l ⟨2, 2⟩ hlen
    have h2max : 2 < u32Max := by decide
    refine ⟨new_body_ne_nil l ⟨2, 2⟩ hlen, chain_new l ⟨2, 2⟩,
      ?_, ?_, ?_, ?_, hw, hhh⟩
    · show 1 ≤ ((Snake.new l ⟨2, 2⟩).head).x
      rw [hhead]
      show 1 ≤ 2 + (l - 1)
      omega
    · show 1 ≤ ((Snake.new l ⟨2, 2⟩).head).y
      rw [hhead]
      show 1 ≤ 2
      omega
    · show ((Snake.new l ⟨2, 2⟩).head).x < u32Max
      rw [hhead]
      show 2 + (l - 1) < u32Max
      omega
    · show ((Snake.new l ⟨2, 2⟩).head).y < u32Max
      rw [hhead]
      exact h2max

theorem inv_step {e e' : SnakeEngine} {c : Nat} {n : Int} (hInv : EngineInv e)
    (ht : e.tick c = (e', GameStatus.ContinueAtLevel n)) : EngineInv e' := by
  obtain ⟨hne, hchain, hx, hy, hx2, hy2, hpw, hph⟩ := hInv
  obtain ⟨hbody, hpit, hcolF, hselfF⟩ := tick_continue_shape ht
  have hbound := (collides_with_bounds_eq_false_iff _ _).mp hcolF
  have hhead' : e'.snake.head = (e.snake.move_to_next_position).head := by
    simp only [Snake.head, hbody]
  refine ⟨?_, ?_, ?_, ?_, ?_, ?_, ?_, ?_⟩
  · rw [hbody, move_body e.snake hne]; simp
  · rw [hbody]; exact move_chain e.snake hne hchain hx hy hx2 hy2
  · rw [hhead']; exact hbound.1
  · rw [hhead']; exact hbound.2.1
  · rw [hhead']; exact lt_of_lt_of_le hbound.2.2.1 hpw
  · rw [hhead']; exact lt_of_lt_of_le hbound.2.2.2 hph
  · rw [hpit]; exact hpw
  · rw [hpit]; exact hph

theorem reachable_inv {e : SnakeEngine} (h : ReachableEngine e) :
    EngineInv e := by
  induction h with
  | construct hh ww l c e hlen hlen2 hw hh2 heq =>
    exact inv_construct hlen hlen2 hw hh2 heq
  | changeDir e d h ih => exact ih
  | step e e' c n h ht ih => exact inv_step ih ht

/-! ## Claims -/

/-- C1: `tick` first moves the snake (the returned engine's body is always
the moved body); if after the move the head collides with the pit bounds or
the snake is eating itself, `tick` returns `Finished` with the engine's
snake set to the moved snake and the snack untouched — no food check is
performed, so a move that lands on the food while also exiting bounds still
returns `Finished`. -/
theorem claim_c1_collision_checked_before_food (e : SnakeEngine) (c : Nat)
    (hne : e.snake.body ≠ []) :
    (e.tick c).1.snake.body = (e.snake.move_to_next_position).body ∧
    (((e.snake.move_to_next_position).collides_with_bounds e.snake_pit = true ∨
        (e.snake.move_to_next_position).is_eating_itself = true) →
      e.tick c = ({ e with snake := e.snake.move_to_next_position },
        GameStatus.Finished)) := by
  refine ⟨tick_fst_body e c, fun h => ?_⟩
  simp only [SnakeEngine.tick]
  rw [if_pos (Bool.or_eq_true _ _ |>.mpr h)]

/-- C1 witness: the pit-3×5 engine of the repository's own test finishes on
its very first tick, with the snake left in the moved position. -/
theorem claim_c1_collision_checked_before_food_witness :
    SnakeEngine.tick ⟨Snake.new 3 ⟨2, 2⟩, ⟨3, 5⟩, ⟨1, 1⟩⟩ 0 =
      ({ (⟨Snake.new 3 ⟨2, 2⟩, ⟨3, 5⟩, ⟨1, 1⟩⟩ : SnakeEngine) with
          snake := (⟨Snake.new 3 ⟨2, 2⟩, ⟨3, 5⟩, ⟨1, 1⟩⟩ :
            SnakeEngine).snake.move_to_next_position },
        GameStatus.Finished) :=
  (claim_c1_collision_checked_before_food _ 0 (by decide)).2 (Or.inl (by decide))

/-- C2: for a snake with non-empty body, `collides_with_bounds` is true iff
`head.x ≤ 0`, `head.y ≤ 0`, `head.x ≥ width` or `head.y ≥ height`. -/
theorem claim_c2_collides_with_bounds_iff (s : Snake) (pit : SnakePit)
    (hne : s.body ≠ []) :
    (s.collides_with_bounds pit = true ↔
      s.head.x ≤ 0 ∨ s.head.y ≤ 0 ∨ s.head.x ≥ pit.width ∨
        s.head.y ≥ pit.height) := by
  simp [Snake.collides_with_bounds, or_assoc]

/-- C2 witness: a length-3 snake at origin `(2,2)` has head `(4,2)`, which
collides with a width-4 pit. -/
theorem claim_c2_collides_with_bounds_iff_witness :
    (Snake.new 3 ⟨2, 2⟩).body ≠ [] ∧
      (Snake.new 3 ⟨2, 2⟩).collides_with_bounds ⟨3, 4⟩ = true :=
  ⟨by decide, (claim_c2_collides_with_bounds_iff _ _ (by decide)).mpr
    (Or.inr (Or.inr (Or.inl (by decide))))⟩

/-- C3: for a snake with non-empty body, the move computes the new head as
the head offset one cell in the current direction with saturating
arithmetic (a coordinate moving past 0 clamps at 0), appends it at the end
of the body, removes the first element exactly when growth was not
pending, and clears the growth-pending flag in all cases. -/
theorem claim_c3_move_semantics (s : Snake) (hne : s.body ≠ []) :
    ((s.direction = Direction.Up → s.next_head = ⟨s.head.x, s.head.y - 1⟩) ∧
     (s.direction = Direction.Down →
        s.next_head = ⟨s.head.x, satAddOne s.head.y⟩) ∧
     (s.direction = Direction.Left →
        s.next_head = ⟨s.head.x - 1, s.head.y⟩) ∧
     (s.direction = Direction.Right →
        s.next_head = ⟨satAddOne s.head.x, s.head.y⟩)) ∧
    (s.direction = Direction.Left → s.head.x = 0 → s.next_head = s.head) ∧
    (s.direction = Direction.Up → s.head.y = 0 → s.next_head = s.head) ∧
    (s.move_to_next_position).body =
      (if s.longer_on_next_move then s.body else s.body.drop 1)
        ++ [s.next_head] ∧
    (s.move_to_next_position).longer_on_next_move = false := by
  refine ⟨⟨fun h => by simp [Snake.next_head, h],
      fun h => by simp [Snake.next_head, h],
      fun h => by simp [Snake.next_head, h],
      fun h => by simp [Snake.next_head, h]⟩,
    fun h h0 => ?_, fun h h0 => ?_, move_body s hne, move_longer s⟩
  · conv_rhs => rw [show s.head = ⟨s.head.x, s.head.y⟩ from rfl]
    simp [Snake.next_head, h, h0]
  · conv_rhs => rw [show s.head = ⟨s.head.x, s.head.y⟩ from rfl]
    simp [Snake.next_head, h, h0]

/-- C3 witness: a snake with head at `x = 0` heading `Left` keeps its head
in place (saturation at 0), and a plain move drops the old tail. -/
theorem claim_c3_move_semantics_witness :
    (Snake.mk [⟨1, 5⟩, ⟨0, 5⟩] Direction.Left false).next_head =
        (Snake.mk [⟨1, 5⟩, ⟨0, 5⟩] Direction.Left false).head ∧
      ((Snake.mk [⟨1, 5⟩, ⟨0, 5⟩] Direction.Left
          false).move_to_next_position).body = [⟨0, 5⟩, ⟨0, 5⟩] :=
  ⟨(claim_c3_move_semantics _ (by decide)).2.1 rfl (by decide),
   ((claim_c3_move_semantics _ (by decide)).2.2.2.1).trans (by decide)⟩

/-- C7: with body length ≥ 1, the length stays ≥ 1 after a move, is
unchanged by a non-growth move, grows by exactly 1 by a growth move (after
`make_longer`), and is untouched by `make_longer` and `change_direction`
themselves. -/
theorem claim_c7_body_length (s : Snake) (d : Direction)
    (h1 : 1 ≤ s.body.length) :
    1 ≤ (s.move_to_next_position).body.length ∧
    (s.longer_on_next_move = false →
      (s.move_to_next_position).body.length = s.body.length) ∧
    (s.longer_on_next_move = true →
      (s.move_to_next_position).body.length = s.body.length + 1) ∧
    (s.make_longer).body.length = s.body.length ∧
    (s.change_direction d).body.length = s.body.length ∧
    ((s.make_longer).move_to_next_position).body.length =
      s.body.length + 1 := by
  have hm := move_body_length s
  have hm2 := move_body_length s.make_longer
  refine ⟨?_, ?_, ?_, rfl, rfl, ?_⟩
  · rw [hm]; split <;> omega
  · intro h; rw [hm, if_neg (by simp [h])]
  · intro h; rw [hm, if_pos h]
  · rw [hm2]; simp [Snake.make_longer]

/-- C7 witness: a length-2 snake keeps length 2 across a plain move and
reaches length 3 across a growth move. -/
theorem claim_c7_body_length_witness :
    (Snake.new 2 ⟨0, 0⟩).move_to_next_position.body.length = 2 ∧
      (Snake.new 2 ⟨0, 0⟩).make_longer.move_to_next_position.body.length = 3 :=
  ⟨((claim_c7_body_length _ Direction.Up (by decide)).2.1 rfl).trans (by decide),
   ((claim_c7_body_length _ Direction.Up (by decide)).2.2.2.2.2).trans
     (by decide)⟩

/-- C10: a snake of length ≥ 2 whose head is at `x = 0` moving `Left`
(resp. `y = 0` moving `Up`) gets a new head equal to the old head by
saturating subtraction, and `is_eating_itself` is true right after that
move. -/
theorem claim_c10_zero_saturation_self_collision (s : Snake)
    (h2 : 2 ≤ s.body.length)
    (hdir : (s.direction = Direction.Left ∧ s.head.x = 0) ∨
            (s.direction = Direction.Up ∧ s.head.y = 0)) :
    (s.move_to_next_position).head = s.head ∧
    (s.move_to_next_position).is_eating_itself = true := by
  have hne : s.body ≠ [] := by
    cases hb : s.body with
    | nil => rw [hb] at h2; simp at h2
    | cons a t => simp
  have hnh : s.next_head = s.head := by
    rcases hdir with ⟨hd, h0⟩ | ⟨hd, h0⟩ <;>
      · conv_rhs => rw [show s.head = ⟨s.head.x, s.head.y⟩ from rfl]
        simp [Snake.next_head, hd, h0]
  refine ⟨by rw [move_head s hne, hnh], ?_⟩
  have hmem : s.head ∈
      (if s.longer_on_next_move then s.body else s.body.drop 1) := by
    cases hl : s.longer_on_next_move with
    | true =>
      rw [if_pos rfl]
      exact getLastD_mem s.body ⟨0, 0⟩ hne
    | false =>
      rw [if_neg (show ¬((false : Bool) = true) by simp)]
      cases hb : s.body with
      | nil => exact absurd hb hne
      | cons a t =>
        have ht : t ≠ [] := by
          rw [hb] at h2
          cases t with
          | nil => simp at h2
          | cons b t' => simp
        have hh : s.head = t.getLastD a := by
          show s.body.getLastD ⟨0, 0⟩ = t.getLastD a
          rw [hb, List.getLastD_cons]
        rw [List.drop_one, List.tail_cons, hh]
        exact getLastD_mem t a ht
  unfold Snake.is_eating_itself
  rw [move_body s hne, List.dropLast_concat, List.any_eq_true]
  refine ⟨s.head, hmem, ?_⟩
  rw [move_head s hne, hnh]
  simp

/-- C10 witness: the two-segment snake `[(1,0),(0,0)]` heading `Left`
stays in place and bites itself. -/
theorem claim_c10_zero_saturation_self_collision_witness :
    ((Snake.mk [⟨1, 0⟩, ⟨0, 0⟩] Direction.Left
        false).move_to_next_position).head = ⟨0, 0⟩ ∧
      ((Snake.mk [⟨1, 0⟩, ⟨0, 0⟩] Direction.Left
        false).move_to_next_position).is_eating_itself = true :=
  ⟨((claim_c10_zero_saturation_self_collision _ (by decide)
      (Or.inl ⟨rfl, by decide⟩)).1).trans (by decide),
   (claim_c10_zero_saturation_self_collision _ (by decide)
      (Or.inl ⟨rfl, by decide⟩)).2⟩

/-- C8 counterexample: starting from body `[(0,0),(1,0),(2,0)]` (head
last, heading `Right`) and applying exactly the claimed four
direction-change-then-move steps Down, Left, Up, Right yields
`[(1,1),(1,0),(2,0)]`, not the claimed `[(2,1),(2,0),(3,0)]`. -/
theorem claim_c8_four_step_counterexample :
    (dirMove (dirMove (dirMove (dirMove
        (Snake.mk [⟨0, 0⟩, ⟨1, 0⟩, ⟨2, 0⟩] Direction.Right false)
        Direction.Down) Direction.Left) Direction.Up) Direction.Right).body
      = [⟨1, 1⟩, ⟨1, 0⟩, ⟨2, 0⟩] ∧
    (dirMove (dirMove (dirMove (dirMove
        (Snake.mk [⟨0, 0⟩, ⟨1, 0⟩, ⟨2, 0⟩] Direction.Right false)
        Direction.Down) Direction.Left) Direction.Up) Direction.Right).body
      ≠ [⟨2, 1⟩, ⟨2, 0⟩, ⟨3, 0⟩] := by
  decide

/-- C8 (amended): starting from body `[(0,0),(1,0),(2,0)]` heading
`Right`, one move in the initial heading followed by the direction changes
Down, Left, Up, Right with one move after each — the trace of the
repository's `moving_around` test — yields the final body
`[(2,1),(2,0),(3,0)]`. -/
theorem claim_c8_amended_trace :
    (dirMove (dirMove (dirMove (dirMove
        (Snake.mk [⟨0, 0⟩, ⟨1, 0⟩, ⟨2, 0⟩] Direction.Right
          false).move_to_next_position
        Direction.Down) Direction.Left) Direction.Up) Direction.Right).body
      = [⟨2, 1⟩, ⟨2, 0⟩, ⟨3, 0⟩] := by
  decide

/-- C9: for a pit of height ≥ 2, `get_perimeter` is exactly the full top
row (every `x` at `y = 0`) followed by, for each row `y = i + 1` with
`i + 1 < height` (including the bottom row `height - 1`), just the two
side cells — the bottom row is never emitted as a full row because the
test `y = height` never fires for `y` in `0..height`. -/
theorem claim_c9_perimeter_shape (pit : SnakePit) (h2 : 2 ≤ pit.height) :
    pit.get_perimeter =
      ((List.range pit.width).map fun x => Point.mk x 0) ++
        (List.range (pit.height - 1)).flatMap
          (fun i => [Point.mk 0 (i + 1), Point.mk (pit.width - 1) (i + 1)]) := by
  obtain ⟨m, hm⟩ : ∃ m, pit.height = m + 1 := ⟨pit.height - 1, by omega⟩
  unfold SnakePit.get_perimeter
  rw [hm, Nat.add_sub_cancel, List.range_succ_eq_map, List.flatMap_cons,
    if_pos (Or.inl rfl), List.flatMap_map]
  congr 1
  refine List.flatMap_congr fun i hi => ?_
  have hilt : i < m := List.mem_range.mp hi
  rw [if_neg]
  rintro (h | h) <;> omega

/-- C9 witness: the 3×4 pit's perimeter, fully evaluated — the top row is
complete, rows 1 and 2 contribute only the side cells. -/
theorem claim_c9_perimeter_shape_witness :
    SnakePit.get_perimeter ⟨3, 4⟩ =
      [⟨0, 0⟩, ⟨1, 0⟩, ⟨2, 0⟩, ⟨3, 0⟩, ⟨0, 1⟩, ⟨3, 1⟩, ⟨0, 2⟩, ⟨3, 2⟩] :=
  (claim_c9_perimeter_shape ⟨3, 4⟩ (by decide)).trans (by decide)

/-- C5: snack placement draws only from the interior cells
`1 ≤ x < width`, `1 ≤ y < height` not occupied by the snake body; if that
candidate set is empty at construction the construction fails (the
`panic!`, modelled as `none`), and if it is empty during a mid-game tick
the snack position is left unchanged and play continues with
`ContinueAtLevel 0`. -/
theorem claim_c5_food_placement :
    (∀ (pit : SnakePit) (s : Snake) (p : Point),
        p ∈ possible_snacks pit s ↔
          1 ≤ p.x ∧ p.x < pit.width ∧ 1 ≤ p.y ∧ p.y < pit.height ∧
            s.collides_with_point p = false) ∧
    (∀ (pit : SnakePit) (s : Snake) (c : Nat) (p : Point),
        generate_snack pit s c = some p → p ∈ possible_snacks pit s) ∧
    (∀ (hh ww l c : Nat),
        possible_snacks ⟨hh, ww⟩ (Snake.new l ⟨2, 2⟩) = [] ↔
          new_with_snake_length hh ww l c = none) ∧
    (∀ (e : SnakeEngine) (c : Nat),
        (e.snake.move_to_next_position).collides_with_bounds e.snake_pit
            = false →
        (e.snake.move_to_next_position).is_eating_itself = false →
        (e.snake.move_to_next_position).is_eating_snack e.snack_position
            = true →
        possible_snacks e.snake_pit
            ((e.snake.move_to_next_position).make_longer) = [] →
        e.tick c =
          ({ e with snake := (e.snake.move_to_next_position).make_longer },
            GameStatus.ContinueAtLevel 0)) := by
  refine ⟨mem_possible_snacks_iff, fun pit s c p h => generate_snack_mem h,
    ?_, ?_⟩
  · intro hh ww l c
    constructor
    · intro hps
      simp only [new_with_snake_length]
      rw [(generate_snack_eq_none_iff ⟨hh, ww⟩ (Snake.new l ⟨2, 2⟩) c).mpr hps]
    · intro hnone
      simp only [new_with_snake_length] at hnone
      cases hg : generate_snack ⟨hh, ww⟩ (Snake.new l ⟨2, 2⟩) c with
      | some p => rw [hg] at hnone; exact absurd hnone (by simp)
      | none => exact (generate_snack_eq_none_iff _ _ c).mp hg
  · intro e c hcol hself heat hps
    have hg : generate_snack e.snake_pit
        ((e.snake.move_to_next_position).make_longer) c = none :=
      (generate_snack_eq_none_iff _ _ _).mpr hps
    simp only [SnakeEngine.tick]
    rw [if_neg (by simp [hcol, hself]), if_pos heat, hg]

/-- C5 witness: a snake filling the whole 3×5 playable area eats the last
snack; regeneration finds no free cell, the snack position is untouched
and the tick still returns `ContinueAtLevel 0`. -/
theorem claim_c5_food_placement_witness :
    SnakeEngine.tick
        ⟨⟨[⟨3, 2⟩, ⟨4, 2⟩, ⟨4, 1⟩, ⟨3, 1⟩, ⟨2, 1⟩, ⟨1, 1⟩, ⟨1, 2⟩],
            Direction.Right, true⟩, ⟨3, 5⟩, ⟨2, 2⟩⟩ 0 =
      ({ (⟨⟨[⟨3, 2⟩, ⟨4, 2⟩, ⟨4, 1⟩, ⟨3, 1⟩, ⟨2, 1⟩, ⟨1, 1⟩, ⟨1, 2⟩],
            Direction.Right, true⟩, ⟨3, 5⟩, ⟨2, 2⟩⟩ : SnakeEngine) with
          snake := ((⟨⟨[⟨3, 2⟩, ⟨4, 2⟩, ⟨4, 1⟩, ⟨3, 1⟩, ⟨2, 1⟩, ⟨1, 1⟩,
              ⟨1, 2⟩], Direction.Right, true⟩, ⟨3, 5⟩, ⟨2, 2⟩⟩ :
            SnakeEngine).snake.move_to_next_position).make_longer },
        GameStatus.ContinueAtLevel 0) :=
  claim_c5_food_placement.2.2.2 _ 0 (by decide) (by decide) (by decide)
    (by decide)

/-- C4 counterexample: from `new_with_snake_length 3 5 3` the snake can,
through ticks that all return `ContinueAtLevel`, grow to fill the whole
playable area; the final consumption finds no free cell, so the food stays
at the eaten position and the resulting at-rest state has the food on a
snake body cell. -/
theorem claim_c4_food_on_body_counterexample :
    ((new_with_snake_length 3 5 3 4).bind fun e0 =>
        runContinueSteps e0
          [(some Direction.Up, 4), (some Direction.Left, 2), (none, 0),
            (none, 0), (some Direction.Down, 0),
            (some Direction.Right, 0)]).map
      (fun e => e.snake.collides_with_point e.snack_position) = some true := by
  decide

/-- C4 (amended): the food coincides with no snake body cell after
construction, and the property is preserved by every `ContinueAtLevel`
tick provided that, whenever the moved snake eats the food, the
regeneration candidate set is non-empty; when regeneration finds no free
cell the food instead remains at the eaten position, which lies on the
snake. -/
theorem claim_c4_amended_food_invariant :
    (∀ (hh ww l c : Nat) (e : SnakeEngine),
        new_with_snake_length hh ww l c = some e →
        e.snake.collides_with_point e.snack_position = false) ∧
    (∀ (e : SnakeEngine) (c : Nat) (e' : SnakeEngine) (n : Int),
        e.snake.body ≠ [] →
        e.snake.collides_with_point e.snack_position = false →
        e.tick c = (e', GameStatus.ContinueAtLevel n) →
        ((e.snake.move_to_next_position).is_eating_snack e.snack_position
            = true →
          possible_snacks e.snake_pit
            ((e.snake.move_to_next_position).make_longer) ≠ []) →
        e'.snake.collides_with_point e'.snack_position = false) := by
  constructor
  · intro hh ww l c e heq
    simp only [new_with_snake_length] at heq
    cases hg : generate_snack ⟨hh, ww⟩ (Snake.new l ⟨2, 2⟩) c with
    | none => rw [hg] at heq; exact absurd heq (by simp)
    | some p =>
      rw [hg] at heq
      obtain rfl := Option.some.inj heq
      exact ((mem_possible_snacks_iff _ _ _).mp (generate_snack_mem hg)).2.2.2.2
  · intro e c e' n hne hfood ht hguard
    simp only [SnakeEngine.tick] at ht
    split at ht
    · exact absurd (congrArg Prod.snd ht) (by simp)
    · split at ht
      · rename_i heat
        cases hg : generate_snack e.snake_pit
            ((e.snake.move_to_next_position).make_longer) c with
        | some p =>
          rw [hg] at ht
          obtain rfl := congrArg Prod.fst ht
          show ((e.snake.move_to_next_position).make_longer).collides_with_point
            p = false
          exact ((mem_possible_snacks_iff _ _ _).mp
            (generate_snack_mem hg)).2.2.2.2
        | none =>
          exact absurd ((generate_snack_eq_none_iff _ _ _).mp hg) (hguard heat)
      · rename_i heatneg
        obtain rfl := congrArg Prod.fst ht
        rw [collides_with_point_eq_false_iff]
        show e.snack_position ∉ (e.snake.move_to_next_position).body
        rw [move_body e.snake hne]
        intro hmem
        rcases List.mem_append.mp hmem with hmem1 | hmem2
        · have hmemb : e.snack_position ∈ e.snake.body := by
            cases hl : e.snake.longer_on_next_move with
            | true => rw [hl, if_pos rfl] at hmem1; exact hmem1
            | false =>
              rw [hl, if_neg (show ¬((false : Bool) = true) by simp)] at hmem1
              exact List.mem_of_mem_drop hmem1
          exact (collides_with_point_eq_false_iff _ _).mp hfood hmemb
        · have hsnack : e.snack_position = e.snake.next_head := by
            simpa using hmem2
          apply heatneg
          rw [Snake.is_eating_snack, move_head e.snake hne, ← hsnack]
          simp

/-- C4 witness: a non-eating `ContinueAtLevel` tick of a 20×30 engine
preserves the food-off-body property. -/
theorem claim_c4_amended_food_invariant_witness :
    ((⟨⟨[⟨3, 2⟩, ⟨4, 2⟩, ⟨5, 2⟩], Direction.Right, false⟩, ⟨20, 30⟩,
        ⟨1, 1⟩⟩ : SnakeEngine).snake).collides_with_point ⟨1, 1⟩ = false :=
  claim_c4_amended_food_invariant.2
    ⟨⟨[⟨2, 2⟩, ⟨3, 2⟩, ⟨4, 2⟩], Direction.Right, false⟩, ⟨20, 30⟩, ⟨1, 1⟩⟩ 0
    ⟨⟨[⟨3, 2⟩, ⟨4, 2⟩, ⟨5, 2⟩], Direction.Right, false⟩, ⟨20, 30⟩, ⟨1, 1⟩⟩ 0
    (by decide) (by decide) (by decide) (fun h => absurd h (by decide))

/-- C6: from every reachable engine state (construction with
representable arguments, direction changes, and ticks that returned
`ContinueAtLevel`), the snake body right after the move of any further
tick has every pair of consecutive body points at Manhattan distance
exactly 1. -/
theorem claim_c6_consecutive_adjacent (e : SnakeEngine)
    (h : ReachableEngine e) (c : Nat) :
    List.Chain' (fun p q => manhattanDist p q = 1)
      ((e.tick c).1.snake.body) := by
  have hInv := reachable_inv h
  rw [tick_fst_body]
  exact move_chain e.snake hInv.1 hInv.2.1 hInv.2.2.1 hInv.2.2.2.1
    hInv.2.2.2.2.1 hInv.2.2.2.2.2.1

/-- C6 witness: the freshly constructed 3×5 engine (a reachable state) has
a Manhattan-adjacent body after its first tick's move. -/
theorem claim_c6_consecutive_adjacent_witness :
    List.Chain' (fun p q => manhattanDist p q = 1)
      ((SnakeEngine.tick
          ⟨⟨[⟨2, 2⟩, ⟨3, 2⟩, ⟨4, 2⟩], Direction.Right, false⟩, ⟨3, 5⟩,
            ⟨1, 1⟩⟩ 0).1.snake.body) :=
  claim_c6_consecutive_adjacent _
    (ReachableEngine.construct 3 5 3 0 _ (by decide) (by decide) (by decide)
      (by decide) (by decide)) 0
